import Mathlib

/-!
# chore_thing: overdue-chore polling engine

A shallow embedding of `src/main.go` and `src/grocy/main.go`.

Conventions of the embedding:

* Go `string` values are Lean `String`s.  Every byte-level test the program
  performs on a string compares against ASCII characters only, so on
  well-formed UTF-8 text the character-level reading coincides with the
  byte-level one.
* Go `int` is a 64-bit signed integer, embedded as `Int`; arithmetic that can
  overflow is wrapped explicitly with `wrapInt64`.
* Calls into the Go standard library (`time`, `encoding/json`) are embedded by
  models of the documented library behaviour, kept next to the code that calls
  them.
-/

namespace ChoreThing

/-! ## Data model (`src/grocy/main.go`) -/

/-- The `User` record of the Grocy API. -/
structure User where
  ID : Int
  Username : String
  FirstName : String
  LastName : String
  DisplayName : String
  PictureFileName : String
  RowCreatedTimestamp : String
  deriving DecidableEq, Repr

/-- The `Chore` record of the Grocy API; the `BoolInt` fields are already decoded. -/
structure Chore where
  ChoreID : Int
  ChoreName : String
  LastTrackedTime : String
  TrackDateOnly : Bool
  NextEstimatedExecutionTime : String
  NextExecutionAssignedToUserID : Int
  IsRescheduled : Bool
  IsReassigned : Bool
  NextExecutionAssignedUser : User
  deriving DecidableEq, Repr

/-! ## A model of the parts of Go's `time` package the program calls -/

/-- An instant of the wall clock: seconds since the Unix epoch and the nanoseconds
within that second (`0 ≤ nsec < 10^9`). -/
structure Time where
  sec : Int
  nsec : Nat
  deriving DecidableEq, Repr

/-- Go `Time.Before` on wall-clock readings (a parsed time carries no monotonic
reading, so the wall clock is what is compared):
`ts < us || ts == us && t.nsec() < u.nsec()`. -/
def Time.Before (t u : Time) : Bool :=
  decide (t.sec < u.sec) || (decide (t.sec = u.sec) && decide (t.nsec < u.nsec))

/-- Go `isDigit(s, i)`: index `i` is in range and holds an ASCII digit. -/
def isDigit (s : List Char) (i : Nat) : Bool :=
  match s.get? i with
  | none => false
  | some c => decide (48 ≤ c.toNat) && decide (c.toNat ≤ 57)

/-- The numeric value of an ASCII digit, `int(c - '0')`. -/
def digitVal (c : Char) : Int := (c.toNat : Int) - 48

/-- Go `cutspace`: drop the leading blanks. -/
def cutspace (s : List Char) : List Char :=
  s.dropWhile (fun c => c == ' ')

/-- Go `skip(value, prefix)`: consume the literal text `pfx` of the layout from the
front of `value`.  A blank in the layout matches any run of blanks (also an empty
one at the end of the input); the flag records that the previous layout character
was a blank, so that further blanks of the layout are dropped as `cutspace(prefix)`
does.  `none` is `errBad`. -/
def skipAux : Bool → List Char → List Char → Option (List Char)
  | _, value, [] => some value
  | afterSpace, value, p :: ps =>
    if p = ' ' then
      if afterSpace then skipAux true value ps
      else
        match value with
        | [] => skipAux true [] ps
        | v :: vs => if v ≠ ' ' then none else skipAux true (cutspace (v :: vs)) ps
    else
      match value with
      | [] => none
      | v :: vs => if v = p then skipAux false vs ps else none

/-- Go `skip`. -/
def skip (value pfx : List Char) : Option (List Char) := skipAux false value pfx

/-- Go `getnum(s, fixed)`: one or two leading digits (exactly two when `fixed`). -/
def getnum (s : List Char) (fixed : Bool) : Option (Int × List Char) :=
  if !isDigit s 0 then none
  else if !isDigit s 1 then
    if fixed then none
    else
      match s with
      | c :: rest => some (digitVal c, rest)
      | [] => none
  else
    match s with
    | c0 :: c1 :: rest => some (digitVal c0 * 10 + digitVal c1, rest)
    | _ => none

/-- Go `leadingInt`: the leading decimal digits of `s` as a number and the rest of
`s`; `none` is the overflow error. -/
def leadingInt : Int → List Char → Option (Int × List Char)
  | x, [] => some (x, [])
  | x, c :: cs =>
    if c.toNat < 48 ∨ 57 < c.toNat then some (x, c :: cs)
    else if x > 2 ^ 63 / 10 then none
    else
      let x1 := x * 10 + (c.toNat : Int) - 48
      if x1 > 2 ^ 63 then none else leadingInt x1 cs

/-- Go `atoi` of package `time`: an optional sign, then digits up to the end. -/
def atoi (s : List Char) : Option Int :=
  let neg := match s with
    | c :: _ => decide (c = '-')
    | [] => false
  let body := match s with
    | c :: cs => if c = '-' ∨ c = '+' then cs else c :: cs
    | [] => []
  match leadingInt 0 body with
  | none => none
  | some (q, rem) => if rem.length > 0 then none else some (if neg then -q else q)

/-- Go `commaOrPeriod`. -/
def commaOrPeriod (c : Char) : Bool := c == '.' || c == ','

/-- Go `parseNanoseconds(value, nbytes)`: the fraction `value[0:nbytes]` (a separator
and digits) as nanoseconds; at most nine digits are read. -/
def parseNanoseconds (value : List Char) (nbytes : Nat) : Option Int :=
  match value with
  | [] => none
  | c :: _ =>
    if !commaOrPeriod c then none
    else
      let nb := if nbytes > 10 then 10 else nbytes
      match atoi ((value.take nb).drop 1) with
      | none => none
      | some ns => if ns < 0 then none else some (ns * 10 ^ (10 - nb))

/-- Go `isLeap`. -/
def isLeap (year : Int) : Bool :=
  decide (year % 4 = 0) && (decide (year % 100 ≠ 0) || decide (year % 400 = 0))

/-- Go `daysBefore`: the days of a non-leap year before month `m + 1` starts. -/
def daysBefore (m : Nat) : Int :=
  ([0, 31, 59, 90, 120, 151, 181, 212, 243, 273, 304, 334, 365] : List Int).getD m 0

/-- Go `daysIn(m, year)`. -/
def daysIn (m : Nat) (year : Int) : Int :=
  if m = 2 ∧ isLeap year = true then 29 else daysBefore m - daysBefore (m - 1)

/-- The days from 1970-01-01 to the first of January of `year` in the proleptic
Gregorian calendar. -/
def daysSinceEpoch (year : Int) : Int :=
  let leaps (y : Int) : Int := (y - 1) / 4 - (y - 1) / 100 + (y - 1) / 400
  365 * (year - 1970) + (leaps year - leaps 1970)

/-- Go `Date(year, month, day, hour, min, sec, nsec, loc)` for fields that are in
range already, in a location with the fixed offset `offset` (seconds east of UTC). -/
def Date (year : Int) (month : Nat) (day hour min sec : Int) (nsec : Nat) (offset : Int) :
    Time :=
  let d := daysSinceEpoch year + daysBefore (month - 1)
    + (if isLeap year = true ∧ 3 ≤ month then 1 else 0) + (day - 1)
  { sec := d * 86400 + hour * 3600 + min * 60 + sec - offset, nsec := nsec }

/-- The optional fraction that Go accepts after the seconds field although the layout
has none: a separator followed by at least one digit; returns the nanoseconds and the
rest of the input. -/
def parseFraction (value : List Char) : Option (Nat × List Char) :=
  match value with
  | c :: _ :: _ =>
    if commaOrPeriod c && isDigit value 1 then
      let n := 2 + ((value.drop 2).takeWhile (fun d => isDigit [d] 0)).length
      match parseNanoseconds value n with
      | none => none
      | some ns => some (ns.toNat, value.drop n)
    else some (0, value)
  | _ => some (0, value)

/-- The year chunk of the layout (`stdLongYear`): four characters, the first a digit,
read by `atoi`; returns the year and the rest of the input. -/
def parseYear (value : List Char) : Option (Int × List Char) :=
  if value.length < 4 || !isDigit value 0 then none
  else
    match atoi (value.take 4) with
    | none => none
    | some year => some (year, value.drop 4)

/-- A numeric chunk of the layout behind the literal text `pfx`: `skip` the text, read
the number with `getnum`, and reject it when it is not below `bound` (the range checks
of month, hour, minute and second; `none` as bound when the chunk has no range
check at this point, as for the day). -/
def parseField (pfx : List Char) (fixed : Bool) (lo : Int) (bound : Option Int)
    (value : List Char) : Option (Int × List Char) :=
  match skip value pfx with
  | none => none
  | some v =>
    match getnum v fixed with
    | none => none
    | some (n, rest) =>
      match bound with
      | none => some (n, rest)
      | some b => if n < lo || b ≤ n then none else some (n, rest)

/-- Go `time.ParseInLocation("2006-01-02 15:04:05", value, loc)` for a location with a
fixed offset: the chunks of the layout are processed in order (four-digit year,
two-digit month in 1..12, two-digit day, one- or two-digit hour below 24, two-digit
minute and second below 60, the second with an optional fraction), the text between
them is consumed by `skip`, text left over is an error, and the day is validated
against the month at the end.  `none` stands for every `ParseError`. -/
def ParseInLocation (offset : Int) (value : String) : Option Time :=
  (parseYear value.data).bind fun (year, v1) =>
  (parseField ['-'] true 1 (some 13) v1).bind fun (month, v2) =>
  (parseField ['-'] true 0 none v2).bind fun (day, v3) =>
  (parseField [' '] false 0 (some 24) v3).bind fun (hour, v4) =>
  (parseField [':'] true 0 (some 60) v4).bind fun (min, v5) =>
  (parseField [':'] true 0 (some 60) v5).bind fun (sec, v6) =>
  (parseFraction v6).bind fun (nsec, v7) =>
  if v7.length ≠ 0 then none
  else if day < 1 || day > daysIn month.toNat year then none
  else some (Date year month.toNat day hour min sec nsec offset)

/-! ## The evaluation loop of `checkChores` (`src/main.go`, lines 386-430) -/

/-- The two variables the loop of `checkChores` writes: the local slice
`overdueChores` and the package variable `userID`. -/
structure LoopState where
  overdueChores : List String
  userID : Int
  deriving DecidableEq, Repr

/-- One iteration of the `for _, chore := range chores` loop.  `parse` stands for
`time.ParseInLocation("2006-01-02 15:04:05", ·, currentTime.Location())`. -/
def checkChoresStep (parse : String → Option Time) (username : String)
    (currentTime : Time) (st : LoopState) (chore : Chore) : LoopState :=
  -- Skip if the chore is not assigned to our user
  if chore.NextExecutionAssignedUser.Username ≠ username then st
  else
    let st1 : LoopState := { st with userID := chore.NextExecutionAssignedToUserID }
    -- Skip if no execution time is set
    if chore.NextEstimatedExecutionTime = "" then st1
    else
      match parse chore.NextEstimatedExecutionTime with
      | none => st1
      | some nextExecution =>
        if nextExecution.Before currentTime = true then
          { st1 with overdueChores := st1.overdueChores ++ [chore.ChoreName] }
        else st1

/-- The whole loop, started with `overdueChores = nil` and the current value of the
package variable `userID`. -/
def checkChoresLoop (parse : String → Option Time) (username : String)
    (currentTime : Time) (chores : List Chore) (userID : Int) : LoopState :=
  chores.foldl (checkChoresStep parse username currentTime)
    { overdueChores := [], userID := userID }

/-! ## Configuration (`src/main.go`, lines 20-138) -/

/-- The application configuration; `CheckTimeout` is in minutes. -/
structure Config where
  GrocyURL : String
  APIKey : String
  Username : String
  CheckTimeout : Int
  deriving DecidableEq, Repr

/-- The configuration with default values. -/
def getDefaultConfig : Config :=
  { GrocyURL := "http://localhost:8080/api"
    APIKey := "your-api-key-here"
    Username := "andersmmg"
    CheckTimeout := 1 }

/-- The defaulting step of `loadConfig` (lines 105-126): every missing value is
filled from `getDefaultConfig`; the flag is `configUpdated`. -/
def fillDefaults (parsed : Config) : Config × Bool :=
  let defaultConfig := getDefaultConfig
  let s0 : Config × Bool := (parsed, false)
  let s1 : Config × Bool :=
    if s0.1.GrocyURL = "" then ({ s0.1 with GrocyURL := defaultConfig.GrocyURL }, true) else s0
  let s2 : Config × Bool :=
    if s1.1.APIKey = "" then ({ s1.1 with APIKey := defaultConfig.APIKey }, true) else s1
  let s3 : Config × Bool :=
    if s2.1.Username = "" then ({ s2.1 with Username := defaultConfig.Username }, true) else s2
  let s4 : Config × Bool :=
    if s3.1.CheckTimeout ≤ 0 then
      ({ s3.1 with CheckTimeout := defaultConfig.CheckTimeout }, true)
    else s3
  s4

/-- What the file system presents to `loadConfig`: each constructor is one path
through the function. -/
inductive ConfigSource where
  /-- The call of `getConfigPath` fails. -/
  | noConfigPath
  /-- The file does not exist; `saved` tells whether writing the default file works. -/
  | missing (saved : Bool)
  /-- The file exists but cannot be read. -/
  | unreadable
  /-- The content of the file is rejected by `json.Unmarshal`. -/
  | malformed
  /-- The value `json.Unmarshal` stores into `config` (absent fields are zero). -/
  | parsed (config : Config)
  deriving DecidableEq, Repr

/-- The function `loadConfig`: the configuration returned and whether the error
returned with it is non-nil. -/
def loadConfig : ConfigSource → Config × Bool
  | .noConfigPath => (getDefaultConfig, true)
  | .missing saved => if saved then (getDefaultConfig, false) else (getDefaultConfig, true)
  | .unreadable => (getDefaultConfig, true)
  | .malformed => (getDefaultConfig, true)
  | .parsed config => ((fillDefaults config).1, false)

/-- The desktop notifications (title and message) that a call of `loadConfig` sends
itself: on the path that has just written the default file it calls
`beeep.Notify("No Config", ...)` (line 92); no other path sends one. -/
def loadConfigNotifications : ConfigSource → List (String × String)
  | .missing saved =>
    if saved then
      [("No Config", "Created default config, please edit it with your actual values")]
    else []
  | _ => []

/-! ## The API client (`src/grocy/main.go`) -/

/-- What the network presents to `GetChores`. -/
inductive HTTPOutcome where
  /-- The call of `client.Do` fails. -/
  | transportError
  /-- A response with a status code; `body` is what decoding the body as a chore
  list yields, `none` when the decoder fails. -/
  | response (statusCode : Nat) (body : Option (List Chore))
  deriving DecidableEq, Repr

/-- The method `GetChores`: `none` is a non-nil error. -/
def GetChores : HTTPOutcome → Option (List Chore)
  | .transportError => none
  | .response statusCode body => if statusCode ≠ 200 then none else body

/-- A JSON number literal: sign, integer digits, optional fraction digits and
optional exponent. -/
structure JSONNumber where
  negative : Bool
  intPart : Nat
  fraction : Option (List Nat)
  exponent : Option Int

/-- A JSON value, the input of an `UnmarshalJSON` method. -/
inductive JSONValue where
  | null
  | bool (b : Bool)
  | number (n : JSONNumber)
  | string (s : String)
  | array (items : List JSONValue)
  | object (members : List (String × JSONValue))

/-- The errors of `json.Unmarshal` into an `int`. -/
inductive JSONError where
  | unmarshalType
  deriving DecidableEq, Repr

/-- Go `json.Unmarshal(data, &num)` for `num` of type `int`: a number literal is read
with `strconv.ParseInt(literal, 10, 64)`, which accepts neither a fraction nor an
exponent nor a value outside the 64-bit range; `null` has no effect on `num` and
produces no error; every other value is an `UnmarshalTypeError`. -/
def unmarshalInt (data : JSONValue) (num : Int) : Except JSONError Int :=
  match data with
  | .null => .ok num
  | .number n =>
    match n.fraction, n.exponent with
    | none, none =>
      let v : Int := if n.negative then -(n.intPart : Int) else (n.intPart : Int)
      if v < -(2 ^ 63) ∨ 2 ^ 63 ≤ v then .error .unmarshalType else .ok v
    | _, _ => .error .unmarshalType
  | _ => .error .unmarshalType

/-- The method `BoolInt.UnmarshalJSON`: the new value of the target `b` and the error
returned (`none` is nil). -/
def BoolInt.UnmarshalJSON (data : JSONValue) (b : Bool) : Bool × Option JSONError :=
  match unmarshalInt data 0 with
  | .error err => (b, some err)
  | .ok num => (decide (num ≠ 0), none)

/-! ## One cycle: `checkChores` and `checkChoresWithNotification` -/

/-- The process-wide variables `userID` and `hasOverdueChores`. -/
structure EngineState where
  userID : Int
  hasOverdueChores : Bool
  deriving DecidableEq, Repr

/-- The initial values of the package variables (lines 28-29). -/
def EngineState.initial : EngineState := { userID := -1, hasOverdueChores := false }

/-- Everything a cycle reads from outside the program. -/
structure CycleEnv where
  configSource : ConfigSource
  http : HTTPOutcome
  currentTime : Time
  parse : String → Option Time

/-- What a call of `checkChores` yields: the slice returned, the new value of the
package variable `userID`, and the desktop notifications sent during the call (those
of its call of `loadConfig`), in the order they are sent. -/
structure CheckResult where
  overdueChores : List String
  userID : Int
  notifications : List (String × String)
  deriving DecidableEq, Repr

/-- The function `checkChores`.  It starts with `loadConfig()`, whose notification is
sent whatever happens afterwards. -/
def checkChores (env : CycleEnv) (userID : Int) : CheckResult :=
  let (config, err) := loadConfig env.configSource
  let sent := loadConfigNotifications env.configSource
  if err then { overdueChores := [], userID := userID, notifications := sent }
  else
    match GetChores env.http with
    | none => { overdueChores := [], userID := userID, notifications := sent }
    | some chores =>
      let r := checkChoresLoop env.parse config.Username env.currentTime chores userID
      { overdueChores := r.overdueChores, userID := r.userID, notifications := sent }

/-- Go `fmt.Sprintf("%d", n)`. -/
def fmtInt (n : Int) : String := toString n

/-- The loop that adds the first chores to the notification (lines 353-359); `i` is
the index of the head of `chores` in the slice of length `total`. -/
def appendChores (maxDisplay : Nat) (total : Int) :
    Nat → List String → String → String
  | _, [], message => message
  | i, chore :: rest, message =>
    if i ≥ maxDisplay then
      message ++ ("...and " ++ fmtInt (total - maxDisplay) ++ " more")
    else
      appendChores maxDisplay total (i + 1) rest (message ++ ("\n- " ++ chore))

/-- The message of the notification (lines 347-360). -/
def notificationMessage (overdueChores : List String) : String :=
  let message := "You have " ++ fmtInt overdueChores.length ++ " overdue chores!"
  if overdueChores.length > 0 then
    appendChores 3 overdueChores.length 0 overdueChores (message ++ "\n")
  else message

/-- What a cycle leaves behind: the package variables, the icon shown (`true` is the
warning icon) and every desktop notification sent during the cycle (title and
message), in the order they are sent. -/
structure CycleResult where
  state : EngineState
  warningIcon : Bool
  notifications : List (String × String)
  deriving DecidableEq, Repr

/-- The function `checkChoresWithNotification`: the notifications of the cycle are
those sent inside `checkChores`, followed by the notice of overdue chores
(lines 345-366) when there are any. -/
def checkChoresWithNotification (env : CycleEnv) (st : EngineState) : CycleResult :=
  let checked := checkChores env st.userID
  let overdueChores := checked.overdueChores
  let hasOverdueChores := decide (overdueChores.length > 0)
  { state := { userID := checked.userID, hasOverdueChores := hasOverdueChores }
    warningIcon := hasOverdueChores
    notifications :=
      checked.notifications ++
        (if hasOverdueChores then [("Chore Thing", notificationMessage overdueChores)]
          else []) }

/-! ## The menu actions of `onReady` -/

/-- The base URL of the web interface (lines 256-259): the API URL without a trailing
`/api`. -/
def baseURL (grocyURL : String) : String :=
  if grocyURL.length ≥ 4 ∧ grocyURL.data.drop (grocyURL.length - 4) = "/api".data then
    String.mk (grocyURL.data.take (grocyURL.length - 4))
  else grocyURL

/-- The URL opened by "Open Web Overview" (lines 262-265). -/
def webURL (grocyURL : String) (userID : Int) : String :=
  let webURL := baseURL grocyURL ++ "/choresoverview"
  if userID > 0 then webURL ++ "?user=" ++ fmtInt userID else webURL

/-- The value of a 64-bit signed integer computation: `x` wrapped into
`[-2^63, 2^63)`. -/
def wrapInt64 (x : Int) : Int := (x + 2 ^ 63) % 2 ^ 64 - 2 ^ 63

/-- Go `time.Minute`, in nanoseconds. -/
def Minute : Int := 60000000000

/-- The interval `time.Duration(config.CheckTimeout) * time.Minute`. -/
def checkInterval (config : Config) : Int := wrapInt64 (config.CheckTimeout * Minute)

/-- The state of the periodic trigger: the flag `autoCheckEnabled` and the ticker,
which is stopped (`none`) or running with an interval in nanoseconds. -/
structure Controller where
  autoCheckEnabled : Bool
  ticker : Option Int
  deriving DecidableEq, Repr

/-- Go `time.NewTicker(d)` and `ticker.Reset(d)`: both panic (`none`) when `d ≤ 0`,
otherwise the ticker runs with interval `d`. -/
def startTicker (d : Int) : Option (Option Int) :=
  if d ≤ 0 then none else some (some d)

/-- The start of `onReady` (lines 208-217): auto check is on and the ticker is
created from the configuration loaded at process start. -/
def onReady (src : ConfigSource) : Option Controller :=
  let initialConfig := (loadConfig src).1
  match startTicker (checkInterval initialConfig) with
  | none => none
  | some ticker => some { autoCheckEnabled := true, ticker := ticker }

/-- The menu action "Auto Check" (lines 230-246); `src` is what `loadConfig` finds
at the moment of the click. -/
def toggleAutoCheck (src : ConfigSource) (c : Controller) : Option Controller :=
  let autoCheckEnabled := !c.autoCheckEnabled
  if autoCheckEnabled then
    let (loaded, err) := loadConfig src
    let config := if err then getDefaultConfig else loaded
    match startTicker (checkInterval config) with
    | none => none
    | some ticker => some { autoCheckEnabled := autoCheckEnabled, ticker := ticker }
  else
    some { autoCheckEnabled := autoCheckEnabled, ticker := none }

/-- The case `<-ticker.C` (lines 291-302). -/
def onTick (src : ConfigSource) (c : Controller) : Option Controller :=
  if c.autoCheckEnabled then
    let (config, err) := loadConfig src
    if err then some c
    else
      match startTicker (checkInterval config) with
      | none => none
      | some ticker => some { c with ticker := ticker }
  else some c

/-! ## Specification-side definitions

The notions the specification uses to describe the results, written from its words;
the theorems below compare them with the functions above. -/

/-- The chore is assigned to the user `username` (exact, case-sensitive equality). -/
def matchesUser (username : String) (c : Chore) : Bool :=
  decide (c.NextExecutionAssignedUser.Username = username)

/-- Instant `t` is strictly before instant `u`. -/
def strictlyBefore (t u : Time) : Prop :=
  t.sec < u.sec ∨ (t.sec = u.sec ∧ t.nsec < u.nsec)

instance instDecidableStrictlyBefore (t u : Time) : Decidable (strictlyBefore t u) :=
  inferInstanceAs (Decidable (t.sec < u.sec ∨ (t.sec = u.sec ∧ t.nsec < u.nsec)))

/-- A qualifying chore of the overdue evaluator: assigned to `username`, with a
non-empty timestamp that parses to an instant strictly before `now`. -/
def qualifies (parse : String → Option Time) (username : String) (now : Time)
    (c : Chore) : Bool :=
  decide (c.NextExecutionAssignedUser.Username = username) &&
  decide (c.NextEstimatedExecutionTime ≠ "") &&
  (match parse c.NextEstimatedExecutionTime with
    | some t => decide (strictlyBefore t now)
    | none => false)

/-- The user identifier of the last chore of a list, `dflt` for the empty list. -/
def lastUserID (dflt : Int) (cs : List Chore) : Int :=
  match cs.getLast? with
  | some c => c.NextExecutionAssignedToUserID
  | none => dflt

/-- The enumeration of chore names in a notification, every name on a line of its
own as `- <name>`. -/
def choreLines : List String → String
  | [] => ""
  | name :: rest => "\n- " ++ name ++ choreLines rest

/-- The lines of a text: the pieces between its line breaks. -/
def splitLines (s : String) : List String :=
  (s.data.foldr
    (fun c acc =>
      if c = '\n' then [] :: acc
      else
        match acc with
        | line :: rest => (c :: line) :: rest
        | [] => [[c]])
    [[]]).map String.mk

/-- A chore assigned to a user called `username`, every other field chosen freely. -/
def sampleChore (name username timestamp : String) (uid : Int) : Chore :=
  { ChoreID := 1
    ChoreName := name
    LastTrackedTime := ""
    TrackDateOnly := false
    NextEstimatedExecutionTime := timestamp
    NextExecutionAssignedToUserID := uid
    IsRescheduled := false
    IsReassigned := false
    NextExecutionAssignedUser :=
      { ID := uid, Username := username, FirstName := "", LastName := "",
        DisplayName := "", PictureFileName := "", RowCreatedTimestamp := "" } }

/-- A cycle whose chore fetch is answered with the HTTP status 500. -/
def failingFetchEnv : CycleEnv :=
  { configSource := .parsed getDefaultConfig
    http := .response 500 none
    currentTime := { sec := 1735776000, nsec := 0 }
    parse := ParseInLocation 0 }

/-- A cycle that finds no `config.json`, writes the default file, and whose chore
fetch is then answered with the HTTP status 500. -/
def missingConfigFetchEnv : CycleEnv :=
  { configSource := .missing true
    http := .response 500 none
    currentTime := { sec := 1735776000, nsec := 0 }
    parse := ParseInLocation 0 }

/-! ## The overdue evaluator -/

theorem Before_iff_strictlyBefore (t u : Time) :
    t.Before u = true ↔ strictlyBefore t u := by
  simp [Time.Before, strictlyBefore]

/-- On instants with a nanosecond part below one second, `strictlyBefore` is the order
of the instants counted in nanoseconds since the epoch. -/
theorem strictlyBefore_iff_nanoseconds (t u : Time) (ht : t.nsec < 1000000000)
    (hu : u.nsec < 1000000000) :
    strictlyBefore t u ↔
      t.sec * 1000000000 + (t.nsec : Int) < u.sec * 1000000000 + (u.nsec : Int) := by
  unfold strictlyBefore
  omega

theorem lastUserID_cons (dflt : Int) (c : Chore) (cs : List Chore) :
    lastUserID dflt (c :: cs) = lastUserID c.NextExecutionAssignedToUserID cs := by
  unfold lastUserID
  rw [List.getLast?_cons]
  cases cs.getLast? <;> rfl

/-- The loop of `checkChores` started in any state: the names of the qualifying
chores are appended in order, and `userID` is overwritten by every matching chore. -/
theorem foldl_checkChoresStep (parse : String → Option Time) (username : String)
    (now : Time) (chores : List Chore) (st : LoopState) :
    chores.foldl (checkChoresStep parse username now) st =
      { overdueChores := st.overdueChores ++
          (chores.filter (qualifies parse username now)).map (fun c => c.ChoreName)
        userID := lastUserID st.userID (chores.filter (matchesUser username)) } := by
  induction chores generalizing st with
  | nil => simp [lastUserID]
  | cons c cs ih =>
    rw [List.foldl_cons, ih]
    by_cases hu : c.NextExecutionAssignedUser.Username = username
    · by_cases he : c.NextEstimatedExecutionTime = ""
      · simp [checkChoresStep, qualifies, matchesUser, hu, he, lastUserID_cons]
      · cases hp : parse c.NextEstimatedExecutionTime with
        | none =>
          simp [checkChoresStep, qualifies, matchesUser, hu, he, hp, lastUserID_cons]
        | some t =>
          by_cases hb : strictlyBefore t now
          · have hb2 := (Before_iff_strictlyBefore t now).2 hb
            simp [checkChoresStep, qualifies, matchesUser, hu, he, hp, hb, hb2,
              lastUserID_cons]
          · have hb2 : ¬ (t.Before now = true) :=
              fun h => hb ((Before_iff_strictlyBefore t now).1 h)
            simp [checkChoresStep, qualifies, matchesUser, hu, he, hp, hb, hb2,
              lastUserID_cons]
    · simp [checkChoresStep, qualifies, matchesUser, hu]

theorem checkChoresLoop_overdueChores (parse : String → Option Time) (username : String)
    (now : Time) (chores : List Chore) (userID : Int) :
    (checkChoresLoop parse username now chores userID).overdueChores =
      (chores.filter (qualifies parse username now)).map (fun c => c.ChoreName) := by
  simp [checkChoresLoop, foldl_checkChoresStep]

theorem checkChoresLoop_userID (parse : String → Option Time) (username : String)
    (now : Time) (chores : List Chore) (userID : Int) :
    (checkChoresLoop parse username now chores userID).userID =
      lastUserID userID (chores.filter (matchesUser username)) := by
  simp [checkChoresLoop, foldl_checkChoresStep]

theorem qualifies_iff (parse : String → Option Time) (username : String) (now : Time)
    (c : Chore) :
    qualifies parse username now c = true ↔
      (c.NextExecutionAssignedUser.Username = username ∧
        c.NextEstimatedExecutionTime ≠ "" ∧
        ∃ t, parse c.NextEstimatedExecutionTime = some t ∧ strictlyBefore t now) := by
  unfold qualifies
  cases hp : parse c.NextEstimatedExecutionTime with
  | none => simp
  | some t => simp [and_assoc]

theorem not_strictlyBefore_self (t : Time) : ¬ strictlyBefore t t := by
  unfold strictlyBefore
  omega

/-- Claim C1: the overdue names returned by the evaluation loop of `checkChores` are
the names of exactly the qualifying chores, in input order with duplicates kept.  A
chore qualifies iff its assigned user is the target username, its timestamp is
non-empty and parses, and the parsed instant is strictly before `now`; an instant
equal to `now` does not qualify.  The empty list and a list without a chore of the
user give the empty result. -/
theorem checkChores_overdue_names (parse : String → Option Time) (username : String)
    (now : Time) (chores : List Chore) (userID : Int) :
    (checkChoresLoop parse username now chores userID).overdueChores =
        (chores.filter (qualifies parse username now)).map (fun c => c.ChoreName) ∧
      (∀ c : Chore, qualifies parse username now c = true ↔
        (c.NextExecutionAssignedUser.Username = username ∧
          c.NextEstimatedExecutionTime ≠ "" ∧
          ∃ t, parse c.NextEstimatedExecutionTime = some t ∧
            (t.sec < now.sec ∨ (t.sec = now.sec ∧ t.nsec < now.nsec)))) ∧
      (∀ c : Chore, parse c.NextEstimatedExecutionTime = some now →
        qualifies parse username now c = false) ∧
      (checkChoresLoop parse username now [] userID).overdueChores = [] ∧
      ((∀ c ∈ chores, c.NextExecutionAssignedUser.Username ≠ username) →
        (checkChoresLoop parse username now chores userID).overdueChores = []) := by
  refine ⟨checkChoresLoop_overdueChores parse username now chores userID,
    fun c => qualifies_iff parse username now c, ?_, rfl, ?_⟩
  · intro c hc
    have h := qualifies_iff parse username now c
    cases hq : qualifies parse username now c with
    | false => rfl
    | true =>
      obtain ⟨_, _, t, ht, hlt⟩ := h.1 hq
      rw [hc] at ht
      cases ht
      exact absurd hlt (not_strictlyBefore_self now)
  · intro hall
    rw [checkChoresLoop_overdueChores]
    have hnil : chores.filter (qualifies parse username now) = [] := by
      rw [List.filter_eq_nil_iff]
      intro c hc hq
      exact hall c hc ((qualifies_iff parse username now c).1 hq).1
    rw [hnil]
    rfl

/-- Claim C4: after the evaluation loop of `checkChores` the variable `userID` holds
the `next_execution_assigned_to_user_id` of the last chore, in input order, whose
assigned user is the target username, whatever its timestamp; when no chore matches,
the loop does not write it, so it keeps the value it had (the sentinel `-1` when
started from the initial state). -/
theorem checkChores_userID_last_match (parse : String → Option Time) (username : String)
    (now : Time) (chores : List Chore) (userID : Int) :
    (checkChoresLoop parse username now chores userID).userID =
        (match (chores.filter (matchesUser username)).getLast? with
          | some c => c.NextExecutionAssignedToUserID
          | none => userID) ∧
      (∀ c : Chore, matchesUser username c = true ↔
        c.NextExecutionAssignedUser.Username = username) ∧
      ((∀ c ∈ chores, c.NextExecutionAssignedUser.Username ≠ username) →
        (checkChoresLoop parse username now chores userID).userID = userID ∧
        (checkChoresLoop parse username now chores EngineState.initial.userID).userID
          = -1) := by
  refine ⟨checkChoresLoop_userID parse username now chores userID, ?_, ?_⟩
  · intro c
    simp [matchesUser]
  · intro hall
    have hnil : chores.filter (matchesUser username) = [] := by
      rw [List.filter_eq_nil_iff]
      intro c hc hq
      exact hall c hc (by simpa [matchesUser] using hq)
    rw [checkChoresLoop_userID, checkChoresLoop_userID, hnil]
    exact ⟨rfl, rfl⟩

/-- The function `checkChores` on its success path is the evaluation loop, run with the
configured username on the chores fetched. -/
theorem checkChores_eq_loop (env : CycleEnv) (userID : Int) (chores : List Chore)
    (hcfg : (loadConfig env.configSource).2 = false)
    (hfetch : GetChores env.http = some chores) :
    checkChores env userID =
      { overdueChores :=
          (checkChoresLoop env.parse (loadConfig env.configSource).1.Username
            env.currentTime chores userID).overdueChores
        userID :=
          (checkChoresLoop env.parse (loadConfig env.configSource).1.Username
            env.currentTime chores userID).userID
        notifications := loadConfigNotifications env.configSource } := by
  unfold checkChores
  rcases h : loadConfig env.configSource with ⟨config, err⟩
  rw [h] at hcfg
  simp only at hcfg
  subst hcfg
  simp [hfetch]

/-- Scenarios A to D of the specification, with `now` = 2025-01-02 00:00:00 UTC: an
overdue chore of the user is reported; a chore of another user, a chore without a
timestamp and a chore with the timestamp `not-a-date` are not. -/
theorem checkChoresLoop_scenarios :
    (checkChoresLoop (ParseInLocation 0) "alice" { sec := 1735776000, nsec := 0 }
        [sampleChore "Dishes" "alice" "2025-01-01 10:00:00" 2] (-1)).overdueChores
        = ["Dishes"] ∧
      (checkChoresLoop (ParseInLocation 0) "bob" { sec := 1735776000, nsec := 0 }
        [sampleChore "Dishes" "alice" "2025-01-01 10:00:00" 2] (-1)).overdueChores = [] ∧
      (checkChoresLoop (ParseInLocation 0) "alice" { sec := 1735776000, nsec := 0 }
        [sampleChore "Dishes" "alice" "" 2] (-1)).overdueChores = [] ∧
      (checkChoresLoop (ParseInLocation 0) "alice" { sec := 1735776000, nsec := 0 }
        [sampleChore "Dishes" "alice" "not-a-date" 2,
          sampleChore "Laundry" "alice" "2025-01-01 11:00:00" 2] (-1)).overdueChores
        = ["Laundry"] ∧
      ParseInLocation 0 "2025-01-02 00:00:00" = some { sec := 1735776000, nsec := 0 } ∧
      (checkChoresLoop (ParseInLocation 0) "alice" { sec := 1735776000, nsec := 0 }
        [sampleChore "Dishes" "alice" "2025-01-02 00:00:00" 2] (-1)).overdueChores = [] := by
  decide

/-- Claim C7: a chore whose timestamp does not parse (in particular a non-empty one
such as `not-a-date`) is excluded without affecting the others: the overdue names of
`xs ++ [c] ++ ys` are those of `xs ++ ys`; and a list in which no timestamp parses
gives the empty result. -/
theorem malformed_chore_excluded (parse : String → Option Time) (username : String)
    (now : Time) (xs ys zs : List Chore) (c : Chore) (userID : Int)
    (hbad : parse c.NextEstimatedExecutionTime = none) :
    (checkChoresLoop parse username now (xs ++ [c] ++ ys) userID).overdueChores =
        (checkChoresLoop parse username now (xs ++ ys) userID).overdueChores ∧
      ((∀ d ∈ zs, parse d.NextEstimatedExecutionTime = none) →
        (checkChoresLoop parse username now zs userID).overdueChores = []) := by
  constructor
  · have hq : qualifies parse username now c = false := by
      simp [qualifies, hbad]
    simp [checkChoresLoop_overdueChores, List.filter_cons, hq]
  · intro hall
    rw [checkChoresLoop_overdueChores]
    have hnil : zs.filter (qualifies parse username now) = [] := by
      rw [List.filter_eq_nil_iff]
      intro d hd hq
      obtain ⟨_, _, t, ht, _⟩ := (qualifies_iff parse username now d).1 hq
      rw [hall d hd] at ht
      cases ht
    rw [hnil]
    rfl

/-- The chore with the timestamp `not-a-date` between two overdue chores of the same
user: the result is that of the two other chores. -/
theorem malformed_chore_excluded_witness :
    (sampleChore "Trash" "alice" "not-a-date" 2).NextEstimatedExecutionTime ≠ "" ∧
      ParseInLocation 0 (sampleChore "Trash" "alice" "not-a-date" 2).NextEstimatedExecutionTime
        = none ∧
      (checkChoresLoop (ParseInLocation 0) "alice" { sec := 1735776000, nsec := 0 }
        ([sampleChore "Dishes" "alice" "2025-01-01 10:00:00" 2] ++
          [sampleChore "Trash" "alice" "not-a-date" 2] ++
          [sampleChore "Laundry" "alice" "2025-01-01 11:00:00" 2]) (-1)).overdueChores =
      (checkChoresLoop (ParseInLocation 0) "alice" { sec := 1735776000, nsec := 0 }
        ([sampleChore "Dishes" "alice" "2025-01-01 10:00:00" 2] ++
          [sampleChore "Laundry" "alice" "2025-01-01 11:00:00" 2]) (-1)).overdueChores :=
  ⟨by decide, by decide,
    (malformed_chore_excluded (ParseInLocation 0) "alice" { sec := 1735776000, nsec := 0 }
      [sampleChore "Dishes" "alice" "2025-01-01 10:00:00" 2]
      [sampleChore "Laundry" "alice" "2025-01-01 11:00:00" 2] []
      (sampleChore "Trash" "alice" "not-a-date" 2) (-1) (by decide)).1⟩

/-! ## One cycle -/

theorem GetChores_failures :
    GetChores .transportError = none ∧
      (∀ (statusCode : Nat) (body : Option (List Chore)), statusCode ≠ 200 →
        GetChores (.response statusCode body) = none) ∧
      GetChores (.response 200 none) = none := by
  refine ⟨rfl, ?_, rfl⟩
  intro statusCode body h
  simp [GetChores, h]

/-- The notifications `loadConfig` sends: none, except the notice "No Config" on the
path that has just created the default file. -/
theorem loadConfigNotifications_cases (src : ConfigSource) :
    (src ≠ .missing true → loadConfigNotifications src = []) ∧
      loadConfigNotifications (.missing true) =
        [("No Config", "Created default config, please edit it with your actual values")] ∧
      (∀ n ∈ loadConfigNotifications src, n.1 = "No Config") := by
  refine ⟨?_, rfl, ?_⟩
  · intro h
    cases src with
    | missing saved =>
      cases saved with
      | false => rfl
      | true => exact absurd rfl h
    | noConfigPath => rfl
    | unreadable => rfl
    | malformed => rfl
    | parsed c => rfl
  · intro n hn
    cases src with
    | missing saved =>
      cases saved with
      | false => simp [loadConfigNotifications] at hn
      | true =>
        simp only [loadConfigNotifications, if_true, List.mem_singleton] at hn
        rw [hn]
    | noConfigPath => simp [loadConfigNotifications] at hn
    | unreadable => simp [loadConfigNotifications] at hn
    | malformed => simp [loadConfigNotifications] at hn
    | parsed c => simp [loadConfigNotifications] at hn

/-- Claim C2, as the code has it: when the chore fetch of a cycle fails (transport
error, a status other than 200, or a decode error), `checkChores` returns no names,
so the cycle sets `hasOverdueChores` to `false` whatever it was before and shows the
normal icon; `userID` is unchanged; no notice of overdue chores is sent, and the
notifications of the cycle are exactly those of its call of `loadConfig`: none,
unless `config.json` was missing and the default file has just been written, in
which case the single notice "No Config" is sent. -/
theorem fetch_failure_cycle (env : CycleEnv) (st : EngineState)
    (hfail : GetChores env.http = none) :
    checkChoresWithNotification env st =
        { state := { userID := st.userID, hasOverdueChores := false }
          warningIcon := false
          notifications := loadConfigNotifications env.configSource } ∧
      (env.configSource ≠ .missing true →
        (checkChoresWithNotification env st).notifications = []) ∧
      (env.configSource = .missing true →
        (checkChoresWithNotification env st).notifications =
          [("No Config", "Created default config, please edit it with your actual values")]) ∧
      (∀ n ∈ (checkChoresWithNotification env st).notifications, n.1 ≠ "Chore Thing") := by
  have hres : checkChoresWithNotification env st =
      { state := { userID := st.userID, hasOverdueChores := false }
        warningIcon := false
        notifications := loadConfigNotifications env.configSource } := by
    unfold checkChoresWithNotification checkChores
    rcases hcfg : loadConfig env.configSource with ⟨config, err⟩
    cases err <;> simp [hfail]
  have hcases := loadConfigNotifications_cases env.configSource
  refine ⟨hres, ?_, ?_, ?_⟩
  · intro hsrc
    rw [hres]
    exact hcases.1 hsrc
  · intro hsrc
    rw [hres, hsrc]
    rfl
  · intro n hn
    rw [hres] at hn
    rw [hcases.2.2 n hn]
    decide

/-- A cycle answered with the status 500, started with `hasOverdueChores = true`. -/
theorem fetch_failure_cycle_witness :
    GetChores failingFetchEnv.http = none ∧
      checkChoresWithNotification failingFetchEnv { userID := 2, hasOverdueChores := true } =
        { state := { userID := 2, hasOverdueChores := false }
          warningIcon := false
          notifications := [] } :=
  ⟨by decide,
    (fetch_failure_cycle failingFetchEnv { userID := 2, hasOverdueChores := true }
      (by decide)).1⟩

/-- Claim C2 as stated fails: the fetch is answered with the status 500 and the state
before the cycle has `hasOverdueChores = true`; after the cycle it is `false`, so the
state is not left unchanged.  And when the cycle finds no `config.json`, its call of
`loadConfig` sends the notice "No Config" although the fetch fails, so a notification
is sent. -/
theorem fetch_failure_changes_state :
    GetChores failingFetchEnv.http = none ∧
      (checkChoresWithNotification failingFetchEnv
        { userID := 2, hasOverdueChores := true }).state.hasOverdueChores = false ∧
      (checkChoresWithNotification failingFetchEnv
        { userID := 2, hasOverdueChores := true }).state ≠
        { userID := 2, hasOverdueChores := true } ∧
      GetChores missingConfigFetchEnv.http = none ∧
      (checkChoresWithNotification missingConfigFetchEnv
        { userID := 2, hasOverdueChores := true }).notifications =
        [("No Config", "Created default config, please edit it with your actual values")] ∧
      (checkChoresWithNotification missingConfigFetchEnv
        { userID := 2, hasOverdueChores := true }).notifications ≠ [] := by
  decide

/-! ## The notification message -/

theorem appendChores_eq (total : Int) (chores : List String) :
    ∀ (i : Nat) (message : String),
      appendChores 3 total i chores message =
        message ++ (choreLines (chores.take (3 - i)) ++
          (if 3 - i < chores.length then "...and " ++ fmtInt (total - 3) ++ " more"
            else "")) := by
  induction chores with
  | nil =>
    intro i message
    simp [appendChores, choreLines]
  | cons chore rest ih =>
    intro i message
    by_cases hi : i ≥ 3
    · have h0 : 3 - i = 0 := by omega
      simp [appendChores, hi, h0, choreLines]
    · have h1 : 3 - i = (3 - (i + 1)) + 1 := by omega
      have h2 : (3 - (i + 1) + 1 < rest.length + 1) ↔ (3 - (i + 1) < rest.length) := by
        omega
      rw [appendChores, if_neg hi, ih (i + 1), h1, List.take_succ_cons, choreLines]
      simp only [List.length_cons, h2, String.append_assoc]

/-- The message the code builds for a non-empty list of `n` names: the header, an
empty line, the first `min n 3` names each on a line of its own, and for `n > 3` the
text `...and (n-3) more` appended to the line of the third name. -/
theorem notificationMessage_eq (names : List String) (hne : names ≠ []) :
    notificationMessage names =
      "You have " ++ fmtInt names.length ++ " overdue chores!" ++ "\n" ++
        choreLines (names.take 3) ++
        (if 3 < names.length then "...and " ++ fmtInt ((names.length : Int) - 3) ++ " more"
          else "") := by
  have hpos : names.length > 0 := List.length_pos.2 hne
  unfold notificationMessage
  rw [if_pos hpos, appendChores_eq]
  simp [String.append_assoc]

/-- Claim C3 does not hold of the code: for five overdue chores the text
`...and 2 more` is not a line of its own but is appended to the line of the third
name (no line break is written before it). -/
theorem notificationMessage_five :
    notificationMessage ["Dishes", "Laundry", "Trash", "Vacuum", "Windows"] =
        "You have 5 overdue chores!\n\n- Dishes\n- Laundry\n- Trash...and 2 more" ∧
      splitLines (notificationMessage ["Dishes", "Laundry", "Trash", "Vacuum", "Windows"]) =
        ["You have 5 overdue chores!", "", "- Dishes", "- Laundry", "- Trash...and 2 more"] ∧
      "...and 2 more" ∉
        splitLines (notificationMessage ["Dishes", "Laundry", "Trash", "Vacuum", "Windows"]) ∧
      "- Trash" ∉
        splitLines (notificationMessage ["Dishes", "Laundry", "Trash", "Vacuum", "Windows"]) := by
  decide

/-! ## The deep link of "Open Web Overview" -/

theorem baseURL_append_api (v : String) : baseURL (v ++ "/api") = v := by
  have hlen : (v ++ "/api").length = v.data.length + 4 := by
    rw [String.length_append]
    rfl
  have hdata : (v ++ "/api").data = v.data ++ "/api".data := String.data_append v "/api"
  unfold baseURL
  rw [hlen, hdata, Nat.add_sub_cancel, List.drop_left, List.take_left]
  simp

theorem baseURL_of_not_suffix (u : String) (h : ¬ ∃ v : String, u = v ++ "/api") :
    baseURL u = u := by
  unfold baseURL
  split
  · rename_i hc
    exfalso
    apply h
    refine ⟨String.mk (u.data.take (u.length - 4)), ?_⟩
    apply String.ext
    rw [String.data_append, ← hc.2]
    exact (List.take_append_drop _ _).symm
  · rfl

/-- Claim C5: the deep link is `strip(u)/choresoverview?user=<id>` when `id > 0` and
`strip(u)/choresoverview` otherwise, where `strip` (the function `baseURL`) removes a
trailing `/api` from a URL that ends with it and returns every other URL unchanged,
URLs shorter than four characters included. -/
theorem webURL_spec (u : String) (id : Int) :
    webURL u id =
        (if id > 0 then baseURL u ++ "/choresoverview?user=" ++ fmtInt id
          else baseURL u ++ "/choresoverview") ∧
      (∀ v : String, u = v ++ "/api" → baseURL u = v) ∧
      ((¬ ∃ v : String, u = v ++ "/api") → baseURL u = u) ∧
      (u.length < 4 → baseURL u = u) := by
  refine ⟨?_, ?_, baseURL_of_not_suffix u, ?_⟩
  · unfold webURL
    split
    · have hlit : "/choresoverview" ++ "?user=" = "/choresoverview?user=" := by decide
      show baseURL u ++ "/choresoverview" ++ "?user=" ++ fmtInt id = _
      rw [String.append_assoc (baseURL u) "/choresoverview" "?user=", hlit]
    · rfl
  · intro v hv
    rw [hv]
    exact baseURL_append_api v
  · intro hlt
    unfold baseURL
    rw [if_neg]
    intro hc
    omega

/-- The deep link for the default API URL with and without a known user, for a URL
that only contains `/api` in the middle, and for a URL shorter than the suffix. -/
theorem webURL_examples :
    webURL "http://localhost:8080/api" 3 = "http://localhost:8080/choresoverview?user=3" ∧
      webURL "http://localhost:8080/api" (-1) = "http://localhost:8080/choresoverview" ∧
      webURL "http://localhost:8080/api" 0 = "http://localhost:8080/choresoverview" ∧
      webURL "http://grocy/api/" 12 = "http://grocy/api//choresoverview?user=12" ∧
      webURL "api" 7 = "api/choresoverview?user=7" ∧
      webURL "/api" 7 = "/choresoverview?user=7" := by
  decide

/-! ## Decoding of `BoolInt` -/

/-- Claim C6, as the code has it: `BoolInt.UnmarshalJSON` decodes the integer `0` to
`false` and every non-zero integer of the 64-bit range to `true`; it returns an error
and leaves the target as it was for a string, a boolean, a number with a fraction or
an exponent, an integer outside the 64-bit range, an array and an object; the value
`null` is accepted without an error and sets the target to `false`. -/
theorem BoolInt_UnmarshalJSON_spec (b : Bool) :
    (∀ neg : Bool,
        BoolInt.UnmarshalJSON (.number ⟨neg, 0, none, none⟩) b = (false, none)) ∧
      (∀ n : Nat, 0 < n → n < 2 ^ 63 →
        BoolInt.UnmarshalJSON (.number ⟨false, n, none, none⟩) b = (true, none)) ∧
      (∀ n : Nat, 0 < n → n ≤ 2 ^ 63 →
        BoolInt.UnmarshalJSON (.number ⟨true, n, none, none⟩) b = (true, none)) ∧
      (∀ n : Nat, 2 ^ 63 ≤ n →
        BoolInt.UnmarshalJSON (.number ⟨false, n, none, none⟩) b =
          (b, some .unmarshalType)) ∧
      (∀ n : Nat, 2 ^ 63 < n →
        BoolInt.UnmarshalJSON (.number ⟨true, n, none, none⟩) b =
          (b, some .unmarshalType)) ∧
      (∀ (neg : Bool) (n : Nat) (digits : List Nat) (e : Option Int),
        BoolInt.UnmarshalJSON (.number ⟨neg, n, some digits, e⟩) b =
          (b, some .unmarshalType)) ∧
      (∀ (neg : Bool) (n : Nat) (f : Option (List Nat)) (e : Int),
        BoolInt.UnmarshalJSON (.number ⟨neg, n, f, some e⟩) b =
          (b, some .unmarshalType)) ∧
      (∀ s : String, BoolInt.UnmarshalJSON (.string s) b = (b, some .unmarshalType)) ∧
      (∀ x : Bool, BoolInt.UnmarshalJSON (.bool x) b = (b, some .unmarshalType)) ∧
      (∀ items : List JSONValue,
        BoolInt.UnmarshalJSON (.array items) b = (b, some .unmarshalType)) ∧
      (∀ members : List (String × JSONValue),
        BoolInt.UnmarshalJSON (.object members) b = (b, some .unmarshalType)) ∧
      BoolInt.UnmarshalJSON .null b = (false, none) := by
  refine ⟨?_, ?_, ?_, ?_, ?_, ?_, ?_, ?_, ?_, ?_, ?_, ?_⟩
  · intro neg
    cases neg <;> simp [BoolInt.UnmarshalJSON, unmarshalInt]
  · intro n h0 h1
    have h2 : ¬ ((n : Int) < -(2 ^ 63) ∨ (2 : Int) ^ 63 ≤ (n : Int)) := by
      have : ((n : Int) < 2 ^ 63) := by exact_mod_cast h1
      omega
    have h3 : (n : Int) ≠ 0 := by omega
    dsimp only [BoolInt.UnmarshalJSON, unmarshalInt]
    simp only [Bool.false_eq_true, if_false, if_true]
    rw [if_neg h2]
    simp [h3]
  · intro n h0 h1
    have h2 : ¬ (-(n : Int) < -(2 ^ 63) ∨ (2 : Int) ^ 63 ≤ -(n : Int)) := by
      have : ((n : Int) ≤ 2 ^ 63) := by exact_mod_cast h1
      omega
    have h3 : -(n : Int) ≠ 0 := by omega
    dsimp only [BoolInt.UnmarshalJSON, unmarshalInt]
    simp only [Bool.false_eq_true, if_false, if_true]
    rw [if_neg h2]
    simp [h3]
  · intro n h1
    have h2 : ((n : Int) < -(2 ^ 63) ∨ (2 : Int) ^ 63 ≤ (n : Int)) := by
      have : ((2 : Int) ^ 63 ≤ n) := by exact_mod_cast h1
      omega
    dsimp only [BoolInt.UnmarshalJSON, unmarshalInt]
    simp only [Bool.false_eq_true, if_false, if_true]
    rw [if_pos h2]
  · intro n h1
    have h2 : (-(n : Int) < -(2 ^ 63) ∨ (2 : Int) ^ 63 ≤ -(n : Int)) := by
      have : ((2 : Int) ^ 63 < n) := by exact_mod_cast h1
      omega
    dsimp only [BoolInt.UnmarshalJSON, unmarshalInt]
    simp only [Bool.false_eq_true, if_false, if_true]
    rw [if_pos h2]
  · intro neg n digits e
    simp [BoolInt.UnmarshalJSON, unmarshalInt]
  · intro neg n f e
    cases f <;> simp [BoolInt.UnmarshalJSON, unmarshalInt]
  · intro s
    simp [BoolInt.UnmarshalJSON, unmarshalInt]
  · intro x
    simp [BoolInt.UnmarshalJSON, unmarshalInt]
  · intro items
    simp [BoolInt.UnmarshalJSON, unmarshalInt]
  · intro members
    simp [BoolInt.UnmarshalJSON, unmarshalInt]
  · simp [BoolInt.UnmarshalJSON, unmarshalInt]

/-- Claim C6 as stated fails at `null`: decoding `null` into a target that holds
`true` returns no error and changes the target to `false`.  It also fails at the
non-zero integer `9223372036854775808`, which does not fit an `int` and is rejected
with an error instead of being decoded to `true`. -/
theorem BoolInt_UnmarshalJSON_null :
    BoolInt.UnmarshalJSON .null true = (false, none) ∧
      (BoolInt.UnmarshalJSON .null true).2 = none ∧
      (BoolInt.UnmarshalJSON .null true).1 ≠ true ∧
      BoolInt.UnmarshalJSON (.number ⟨false, 9223372036854775808, none, none⟩) false =
        (false, some .unmarshalType) := by
  decide

/-! ## Configuration defaults -/

/-- Claim C8: the defaulting step of `loadConfig` replaces an empty `grocy_url`,
`api_key` or `username` by the value of `getDefaultConfig` and a `check_timeout <= 0`
by `1`, and returns every other field as given; the result has no empty string field
and a `check_timeout >= 1`, and the step is idempotent. -/
theorem fillDefaults_spec (c : Config) :
    (fillDefaults c).1.GrocyURL =
        (if c.GrocyURL = "" then getDefaultConfig.GrocyURL else c.GrocyURL) ∧
      (fillDefaults c).1.APIKey =
        (if c.APIKey = "" then getDefaultConfig.APIKey else c.APIKey) ∧
      (fillDefaults c).1.Username =
        (if c.Username = "" then getDefaultConfig.Username else c.Username) ∧
      (fillDefaults c).1.CheckTimeout = (if c.CheckTimeout ≤ 0 then 1 else c.CheckTimeout) ∧
      (fillDefaults c).1.GrocyURL ≠ "" ∧
      (fillDefaults c).1.APIKey ≠ "" ∧
      (fillDefaults c).1.Username ≠ "" ∧
      (fillDefaults c).1.CheckTimeout ≥ 1 ∧
      (fillDefaults (fillDefaults c).1).1 = (fillDefaults c).1 ∧
      (loadConfig (.parsed c)).1 = (fillDefaults c).1 := by
  have hu : "http://localhost:8080/api" ≠ "" := by decide
  have hk : "your-api-key-here" ≠ "" := by decide
  have hn : "andersmmg" ≠ "" := by decide
  by_cases h1 : c.GrocyURL = "" <;> by_cases h2 : c.APIKey = "" <;>
    by_cases h3 : c.Username = "" <;> by_cases h4 : c.CheckTimeout ≤ 0 <;>
    simp [fillDefaults, getDefaultConfig, loadConfig, h1, h2, h3, h4, hu, hk, hn] <;>
    omega

/-! ## The periodic trigger -/

theorem wrapInt64_of_range (x : Int) (hlo : -(2 ^ 63) ≤ x) (hhi : x < 2 ^ 63) :
    wrapInt64 x = x := by
  unfold wrapInt64
  omega

theorem fillDefaults_CheckTimeout (c : Config) :
    (fillDefaults c).1.CheckTimeout = (if c.CheckTimeout ≤ 0 then 1 else c.CheckTimeout) := by
  by_cases h1 : c.GrocyURL = "" <;> by_cases h2 : c.APIKey = "" <;>
    by_cases h3 : c.Username = "" <;> by_cases h4 : c.CheckTimeout ≤ 0 <;>
    simp [fillDefaults, getDefaultConfig, h1, h2, h3, h4]

/-- Every configuration `loadConfig` returns has a `check_timeout` of at least one
minute. -/
theorem loadConfig_CheckTimeout_pos (src : ConfigSource) :
    1 ≤ (loadConfig src).1.CheckTimeout := by
  cases src with
  | noConfigPath => decide
  | missing saved => cases saved <;> decide
  | unreadable => decide
  | malformed => decide
  | parsed c =>
    show 1 ≤ (fillDefaults c).1.CheckTimeout
    rw [fillDefaults_CheckTimeout]
    split <;> omega

/-- With an error `loadConfig` returns the default configuration, so the fallback
`config = getDefaultConfig()` of the toggle does not change the value. -/
theorem loadConfig_error (src : ConfigSource) (herr : (loadConfig src).2 = true) :
    (loadConfig src).1 = getDefaultConfig := by
  cases src with
  | noConfigPath => rfl
  | missing saved => cases saved <;> rfl
  | unreadable => rfl
  | malformed => rfl
  | parsed c => simp [loadConfig] at herr

/-- While `check_timeout` is at most 153722867 minutes the interval is computed
without overflow: it is `check_timeout` minutes and positive. -/
theorem checkInterval_of_le (config : Config) (hlo : 1 ≤ config.CheckTimeout)
    (hhi : config.CheckTimeout ≤ 153722867) :
    checkInterval config = config.CheckTimeout * Minute ∧ 0 < checkInterval config := by
  have h := wrapInt64_of_range (config.CheckTimeout * Minute)
    (by unfold Minute; omega) (by unfold Minute; omega)
  unfold checkInterval
  rw [h]
  exact ⟨rfl, by unfold Minute; omega⟩

/-- The toggle from disabled to enabled, for a `check_timeout` that does not overflow:
the ticker is reset to the `check_timeout`, in minutes, of the configuration loaded at
the moment of the toggle. -/
theorem toggleAutoCheck_enable (src : ConfigSource) (c : Controller)
    (hoff : c.autoCheckEnabled = false)
    (hhi : (loadConfig src).1.CheckTimeout ≤ 153722867) :
    toggleAutoCheck src c =
      some { autoCheckEnabled := true
             ticker := some ((loadConfig src).1.CheckTimeout * Minute) } := by
  have hcfg : (if (loadConfig src).2 = true then getDefaultConfig else (loadConfig src).1)
      = (loadConfig src).1 := by
    by_cases herr : (loadConfig src).2 = true
    · rw [if_pos herr, loadConfig_error src herr]
    · rw [if_neg herr]
  have hint := checkInterval_of_le (loadConfig src).1 (loadConfig_CheckTimeout_pos src) hhi
  have hpos : ¬ ((loadConfig src).1.CheckTimeout * Minute ≤ 0) := by
    rw [← hint.1]
    omega
  simp only [toggleAutoCheck, hoff, Bool.not_false, if_true, hcfg, startTicker, hint.1,
    if_neg hpos]

/-- The toggle from enabled to disabled stops the ticker. -/
theorem toggleAutoCheck_disable (src : ConfigSource) (c : Controller)
    (hon : c.autoCheckEnabled = true) :
    toggleAutoCheck src c = some { autoCheckEnabled := false, ticker := none } := by
  simp [toggleAutoCheck, hon]

/-- Two consecutive toggles that both complete return `autoCheckEnabled` to its
value. -/
theorem toggleAutoCheck_twice (src1 src2 : ConfigSource) (c c1 c2 : Controller)
    (h1 : toggleAutoCheck src1 c = some c1) (h2 : toggleAutoCheck src2 c1 = some c2) :
    c2.autoCheckEnabled = c.autoCheckEnabled := by
  have key : ∀ (src : ConfigSource) (a b : Controller), toggleAutoCheck src a = some b →
      b.autoCheckEnabled = !a.autoCheckEnabled := by
    intro src a b h
    unfold toggleAutoCheck at h
    cases ha : a.autoCheckEnabled
    · simp only [ha, Bool.not_false, if_true] at h
      split at h
      · cases h
      · cases h
        rfl
    · simp only [ha, Bool.not_true, Bool.false_eq_true, if_false] at h
      cases h
      rfl
  rw [key src2 c1 c2 h2, key src1 c c1 h1]
  simp

/-- Claim C9 on the code: the toggle into `AutoCheckEnabled` with a loaded
`check_timeout` of 307445735 minutes resets the ticker to 26290448384 ns (about 26
seconds), not to 307445735 minutes, because the multiplication by `time.Minute`
wraps; with a `check_timeout` of 153722868 minutes the wrapped interval is negative
and `ticker.Reset` panics, so the toggle does not complete. -/
theorem toggleAutoCheck_overflow :
    (loadConfig (.parsed { getDefaultConfig with CheckTimeout := 307445735 })).1.CheckTimeout
        = 307445735 ∧
      toggleAutoCheck (.parsed { getDefaultConfig with CheckTimeout := 307445735 })
        { autoCheckEnabled := false, ticker := none } =
        some { autoCheckEnabled := true, ticker := some 26290448384 } ∧
      (26290448384 : Int) ≠ 307445735 * Minute ∧
      toggleAutoCheck (.parsed { getDefaultConfig with CheckTimeout := 153722868 })
        { autoCheckEnabled := false, ticker := none } = none := by
  decide

/-- The interval is positive for every configuration `loadConfig` returns with an
error, and for every configuration it returns whose `check_timeout` is at most
153722867 minutes. -/
theorem checkInterval_pos_of_le (src : ConfigSource) :
    ((loadConfig src).2 = true → checkInterval (loadConfig src).1 = Minute) ∧
      ((loadConfig src).1.CheckTimeout ≤ 153722867 → 0 < checkInterval (loadConfig src).1) := by
  constructor
  · intro herr
    rw [loadConfig_error src herr]
    decide
  · intro hhi
    exact (checkInterval_of_le (loadConfig src).1 (loadConfig_CheckTimeout_pos src) hhi).2

/-- Claim C10 on the code: the configuration file with `check_timeout` 153722868 is
returned by `loadConfig` as it is (the value is positive), the interval
`153722868 * 60000000000` wraps to -9223371993709551616, and `time.NewTicker` in
`onReady` panics, as does `ticker.Reset` in the ticker case. -/
theorem checkInterval_overflow :
    loadConfig (.parsed { getDefaultConfig with CheckTimeout := 153722868 }) =
        ({ getDefaultConfig with CheckTimeout := 153722868 }, false) ∧
      checkInterval { getDefaultConfig with CheckTimeout := 153722868 } =
        -9223371993709551616 ∧
      ¬ (0 < checkInterval (loadConfig
        (.parsed { getDefaultConfig with CheckTimeout := 153722868 })).1) ∧
      onReady (.parsed { getDefaultConfig with CheckTimeout := 153722868 }) = none ∧
      onTick (.parsed { getDefaultConfig with CheckTimeout := 153722868 })
        { autoCheckEnabled := true, ticker := some Minute } = none := by
  decide

end ChoreThing
